import Mathlib

/-!
Verification of the healer execution sandbox against its specification.

The development shallowly embeds the two source files of the repository:

* `executor/src/exec/jit.rs` — the instrumentation / JIT execution engine:
  the `StatusCode` enumeration and its `From<i32>` conversion, the
  `instrument_prog` translation-unit generator (its string templates are
  transcribed verbatim), a semantic model of the generated `sync_send`
  routine and of the generated `execute` entry point, and `bg_exec`.
* `src/exec/qemu.rs` — the VM lifecycle manager: the static per-architecture
  configuration table, `build_qemu_command`, the boot readiness-polling
  loop, and the port allocator (`get_free_port` / `PortGuard`).

External collaborators (the call translator `iter_trans`, the header catalog
`CTHS`, the OS bind test, the SSH probe, the child process) are modelled as
oracle parameters, exactly at the points where the source calls out to them.
Stateful loops are embedded as structurally recursive functions on an
explicit fuel argument chosen large enough that exhaustion is unreachable
(proved where a claim needs it); machine integers are Nat/Int since no
overflow is reachable in the modelled ranges.
-/

namespace HealerSpec

/-! ## StatusCode (`jit.rs` lines 213-241)

`enum StatusCode { Ok = 0, KcovOpenErr, KcovCloseErr, KcovInitErr,
KcovEnableErr, KcovDisableErr, CovSendErr, MmapErr }` with the Rust
implicit-increment discriminants, and `impl From<i32> for StatusCode`
whose `_ => unreachable!()` arm is modelled as `none` (a panic never
silently yields a variant). -/

inductive StatusCode where
  | Ok
  | KcovOpenErr
  | KcovCloseErr
  | KcovInitErr
  | KcovEnableErr
  | KcovDisableErr
  | CovSendErr
  | MmapErr
deriving DecidableEq, Repr

/-- Rust discriminant of each variant (`StatusCode::X as i32`). -/
def status_ord : StatusCode → Int
  | .Ok => 0
  | .KcovOpenErr => 1
  | .KcovCloseErr => 2
  | .KcovInitErr => 3
  | .KcovEnableErr => 4
  | .KcovDisableErr => 5
  | .CovSendErr => 6
  | .MmapErr => 7

/-- Model of `impl From<i32> for StatusCode`: the match arms `0..=7`; the
`_ => unreachable!()` arm panics, modelled as `none`. -/
def status_from_i32 (val : Int) : Option StatusCode :=
  if val = 0 then some .Ok
  else if val = 1 then some .KcovOpenErr
  else if val = 2 then some .KcovCloseErr
  else if val = 3 then some .KcovInitErr
  else if val = 4 then some .KcovEnableErr
  else if val = 5 then some .KcovDisableErr
  else if val = 6 then some .CovSendErr
  else if val = 7 then some .MmapErr
  else none

/-! ## `bg_exec` (`jit.rs` lines 43-50)

`c::to_prog(p, t)` is the external uninstrumented translator (spec section 6);
its result string is the oracle input. The observable side effects of the
body are compilation of the translated source and one `cc.run` invocation. -/

inductive BgEffect where
  | compile (src : String)
  | run (argv0 : String)
deriving DecidableEq, Repr

/-- Rust `bg_exec`: `let p = c::to_prog(p, t); if !p.is_empty() { compile; run }`.
The argument is the translator's output for the given program and target;
`p.is_empty()` holds exactly when that string is `""`. -/
def bg_exec (translated : String) : List BgEffect :=
  if translated = "" then []
  else [.compile translated, .run "healer-executor-bg-exec"]

/-! ## Port allocator (`qemu.rs` lines 364-389)

`get_free_port` scans `1025..65535`, takes the first `p` with
`TcpListener::bind((LOCALHOST, p)).is_ok() && g.insert(p)`; the bind test is
the oracle `bindable`, the process-wide claimed set `PORTS` is passed and
returned explicitly. `HashSet::insert` returns `true` exactly when the port
was absent (and then inserts it). `impl Drop for PortGuard` runs
`assert!(g.remove(&self.0))`; a failed assertion (port absent) is a panic,
modelled as `none`. -/

/-- The scan loop `for p in 1025..65535`: `count` is the number of ports left
to try, so the initial call uses `count = 65535 - 1025 = 64510`. -/
def scan_ports (bindable : ℕ → Bool) (claimed : Finset ℕ) : ℕ → ℕ → Option ℕ
  | _, 0 => none
  | p, count + 1 =>
    if bindable p = true ∧ p ∉ claimed then some p
    else scan_ports bindable claimed (p + 1) count

/-- Rust `get_free_port`: on success the chosen port is inserted into the claimed
set before the guard is returned. -/
def get_free_port (bindable : ℕ → Bool) (claimed : Finset ℕ) :
    Option (ℕ × Finset ℕ) :=
  match scan_ports bindable claimed 1025 64510 with
  | some p => some (p, insert p claimed)
  | none => none

/-- Rust `Drop for PortGuard`: `assert!(g.remove(&self.0))` — removing a port not
present in the set is an assertion failure (`none`). -/
def drop_guard (claimed : Finset ℕ) (p : ℕ) : Option (Finset ℕ) :=
  if p ∈ claimed then some (claimed.erase p) else none

/-! ## Coverage synchronization routine, semantic model (`jit.rs` lines 80-116)

The generated C function `sync_send(cover, len)` is modelled by its effect:
the sequence of I/O operations it performs on the data and event channels
and its return value. The oracle structure SyncIO decides the outcome of each I/O
call: `prefixWriteOk` is the 4-byte length-prefix `write`, `chunkWrite k r`
is the `k`-th payload `write` when `r` bytes remain (`none` models a `-1`
return), `ackReadOk` is the 8-byte `read` on the event channel. A payload
write never transfers more than requested (POSIX), hence the `min`; a write
that transfers zero bytes makes no progress, so the C loop retries with the
same arguments forever — modelled as `diverge`. `sizeof(unsigned long)` is
8 on the 64-bit targets the executor runs on. -/

inductive SyncEv where
  | writePrefix (len : ℕ)
  | writeChunk (n : ℕ)
  | readAck
deriving DecidableEq, Repr

inductive SyncRes where
  | ok
  | err
  | diverge
deriving DecidableEq, Repr

structure SyncIO where
  prefixWriteOk : Bool
  chunkWrite : ℕ → ℕ → Option ℕ
  ackReadOk : Bool

/-- Bytes carried by one trace event (payload chunks only). -/
def chunk_bytes : SyncEv → ℕ
  | .writeChunk n => n
  | _ => 0

/-- The `while(1)` write-until-complete loop of `sync_send`. The fuel is the
initial byte count; since every productive write transfers at least one
byte, that fuel is never exhausted (fuel-out is reported as `diverge`). -/
def write_loop (io : SyncIO) : ℕ → ℕ → ℕ → SyncRes × List SyncEv
  | _, _, 0 => (.diverge, [])
  | k, remaining, fuel + 1 =>
    match io.chunkWrite k remaining with
    | none => (.err, [])
    | some w =>
      let l2 := min w remaining
      if l2 = 0 then (.diverge, [])
      else if remaining - l2 = 0 then (.ok, [SyncEv.writeChunk l2])
      else
        let r := write_loop io (k + 1) (remaining - l2) fuel
        (r.1, SyncEv.writeChunk l2 :: r.2)

/-- Semantics of `sync_send`: zero length returns 0 at once (no I/O there); otherwise write the
4-byte element count, then `len * sizeof(unsigned long)` payload bytes in
the write-until-complete loop, then block on the 8-byte acknowledgment
read; any `-1` from `write`/`read` returns `-1` (`err`). -/
def sync_send_sem (io : SyncIO) (len : ℕ) : SyncRes × List SyncEv :=
  if len = 0 then (.ok, [])
  else if io.prefixWriteOk = false then (.err, [])
  else
    let r := write_loop io 0 (len * 8) (len * 8)
    match r.1 with
    | .ok =>
      if io.ackReadOk then (.ok, SyncEv.writePrefix len :: r.2 ++ [SyncEv.readAck])
      else (.err, SyncEv.writePrefix len :: r.2)
    | x => (x, SyncEv.writePrefix len :: r.2)

/-! ## Instrumentation engine (`jit.rs` lines 52-211)

The abstract program / target interface is the external collaborator of
spec section 6: a call holds a function id, `fn_of` resolves it to a
descriptor with a canonical call name and attributes, the static header
catalog `CTHS` maps a call name to required headers, and `iter_trans`
yields one native statement per call in program order. All four are oracle
parameters here. The string templates below transcribe the Rust `format!`
templates verbatim (braces are escaped as \x7b and \x7d). -/

structure FnAttrVals where
  vals : Option (List String)

structure FnInfo where
  call_name : String
  attrs : List (String × FnAttrVals)

/-- Rust `fn_info.get_attr(name)` — attribute lookup by name. -/
def FnInfo.get_attr (f : FnInfo) (name : String) : Option FnAttrVals :=
  f.attrs.lookup name

structure CallM where
  fid : ℕ

structure ProgM where
  calls : List CallM

structure TargetM where
  fn_of : ℕ → FnInfo

/-- The baseline include set seeded by `instrument_prog` (the Rust
`hashset!` literal, kept in its textual order). -/
def base_includes : List String :=
  ["stdio.h", "stddef.h", "stdint.h", "stdlib.h", "sys/types.h",
   "sys/stat.h", "sys/ioctl.h", "sys/mman.h", "unistd.h", "fcntl.h",
   "string.h"]

/-- The fixed `#define` block (`macros` in the source). -/
def c_defines : String :=
  "\n#define KCOV_INIT_TRACE  _IOR(\x27c\x27, 1, unsigned long)\n#define KCOV_ENABLE      _IO(\x27c\x27, 100)\n#define KCOV_DISABLE     _IO(\x27c\x27, 101)\n#define COVER_SIZE       1024*1024\n#define KCOV_TRACE_PC    0\n    "

/-- The generated `sync_send` source; the first format slot is the event
(sync) fd, the second the data fd, baked in as literals. -/
def sync_send_src (sync_fd data_fd : Int) : String :=
  "\nint sync_send(unsigned long *cover, uint32_t len)\x7b\n    if (len == 0)\x7b\n        return 0;\n    \x7d\n    char *cover_ = (void*)(cover + 1);\n    int l2;\n    int event_fd = " ++ toString sync_fd ++ ", data_fd = " ++ toString data_fd ++ ";\n    char l[4];\n    char event[8];\n\n    memcpy(l, &len, 4);\n    if (write(data_fd, l, 4) == -1)\x7b\n        return -1;\n    \x7d\n\n    len = len * sizeof(unsigned long);\n    while(1)\x7b\n        l2 = write(data_fd, cover_, len);\n        if(l2 == -1)\x7b\n            return -1;\n        \x7d\n        len -= l2;\n        cover_ += l2;\n\n        if (len == 0)\x7b\n            break;\n        \x7d\n    \x7d\n    if(read(event_fd, event, 8) == -1)\x7b\n        return -1;\n    \x7d\n    return 0;\n\x7d"

/-- The one-time setup block (`kcov_open`): open the coverage device,
initialize the trace buffer, map it; each failure returns its own status
ordinal. -/
def kcov_open_src : String :=
  "\n    int fd;\n    unsigned long *cover;\n    uint32_t len = 0;\n\n    fd = open(\"/sys/kernel/debug/kcov\", O_RDWR);\n    if (fd == -1)\n            return " ++ toString (status_ord .KcovOpenErr) ++ ";\n    if (ioctl(fd, KCOV_INIT_TRACE, COVER_SIZE))\n            return " ++ toString (status_ord .KcovInitErr) ++ ";\n    cover = (unsigned long*)mmap(NULL, COVER_SIZE * sizeof(unsigned long),\n                                 PROT_READ | PROT_WRITE, MAP_SHARED, fd, 0);\n    if ((void*)cover == MAP_FAILED)\n            return " ++ toString (status_ord .MmapErr) ++ ";\n    "

/-- One per-call coverage bracket: enable trace capture, the native call
statement, capture of the trace length, disable, hand-off to `sync_send`;
each failing step returns its own status ordinal immediately. -/
def cov_bracket (generated_call : String) : String :=
  "\n    if (ioctl(fd, KCOV_ENABLE, KCOV_TRACE_PC))\n            return " ++ toString (status_ord .KcovEnableErr) ++ ";\n    cover[0] = 0;\n    " ++ generated_call ++ "\n    len = cover[0];\n    if (ioctl(fd, KCOV_DISABLE, 0))\n            return " ++ toString (status_ord .KcovDisableErr) ++ ";\n    if (sync_send(cover, len) == -1)\n        return " ++ toString (status_ord .CovSendErr) ++ ";"

/-- The one-time teardown block (`clean`): unmap, close, return Ok. -/
def clean_src : String :=
  "\n    if (munmap(cover, COVER_SIZE * sizeof(unsigned long)))\n            return " ++ toString (status_ord .MmapErr) ++ ";\n    if (close(fd))\n            return " ++ toString (status_ord .KcovCloseErr) ++ ";\n    return " ++ toString (status_ord .Ok) ++ ";\n    "

/-- Rust `includes.extend(..)` over a `HashSet`: add each element not yet
present (the model keeps the set as a duplicate-free list; the spec leaves
iteration order to output determinism only). -/
def insert_new (xs : List String) (x : String) : List String :=
  if x ∈ xs then xs else xs ++ [x]

def extend_includes (xs : List String) (ys : List String) : List String :=
  ys.foldl insert_new xs

/-- Per-call header collection: the `CTHS` catalog entry for the call name,
then the values of the function's `inc` attribute. -/
def call_headers (cths : String → Option (List String)) (fi : FnInfo) :
    List String :=
  let fromCatalog := match cths fi.call_name with
    | some hs => hs
    | none => []
  let fromAttr := match fi.get_attr "inc" with
    | some attr => match attr.vals with
      | some vs => vs
      | none => []
    | none => []
  fromCatalog ++ fromAttr

/-- The `for (i, s) in iter_trans(p, t).enumerate()` loop: accumulate the
include set and build one coverage bracket per call, in program order.
`trans i` is the native statement the translator produced for call `i`. -/
def instr_loop (cths : String → Option (List String)) (trans : ℕ → String)
    (t : TargetM) : List CallM → ℕ → List String → List String × List String
  | [], _, includes => (includes, [])
  | c :: rest, i, includes =>
    let fi := t.fn_of c.fid
    let includes2 := extend_includes includes (call_headers cths fi)
    let r := instr_loop cths trans t rest (i + 1) includes2
    (r.1, cov_bracket (trans i) :: r.2)

/-- Assembly of the `execute` entry point: setup, the per-call brackets,
teardown, each written with a trailing newline. -/
def execute_src (stmts : List String) : String :=
  "int execute()\x7b\n" ++ (kcov_open_src ++ "\n" ++
    String.join (stmts.map (fun s => s ++ "\n")) ++ clean_src ++ "\n") ++ "\x7d"

/-- Rust `instrument_prog`: translation-unit assembly. The result type mirrors
the Rust `Result<String, String>`; the body always reaches `Ok(buf)`. -/
def instrument_prog (cths : String → Option (List String))
    (trans : ℕ → String) (p : ProgM) (t : TargetM) (data_fd sync_fd : Int) :
    Except String String :=
  let r := instr_loop cths trans t p.calls 0 base_includes
  let buf := "#define _GNU_SOURCE\n"
    ++ String.join (r.1.map (fun h => "#include<" ++ h ++ ">\n"))
    ++ c_defines ++ "\n"
    ++ sync_send_src sync_fd data_fd ++ "\n"
    ++ execute_src r.2 ++ "\n"
  Except.ok buf

/-- The instrumentation-failure branch of `exec` (`jit.rs` lines 14-18):
`instrument_prog(..).unwrap_or_else(|e| { eprintln!("{}", e); exit(..) })`.
`true` means the error-printing path was taken. -/
def exec_errpath_taken (cths : String → Option (List String))
    (trans : ℕ → String) (p : ProgM) (t : TargetM) (data_fd sync_fd : Int) :
    Bool :=
  match instrument_prog cths trans p t data_fd sync_fd with
  | .ok _ => false
  | .error _ => true

/-! ## Semantics of the generated `execute` function

A shallow embedding of the C entry point `instrument_prog` emits: the
oracle `ExecEnv` decides each fallible kernel interaction (`open`,
`KCOV_INIT_TRACE`, `mmap`, per-call `KCOV_ENABLE`/`KCOV_DISABLE`,
`munmap`, `close`), the trace length each call produces, and the per-call
sync-channel behavior. The result is the returned status (`none` models
blocking forever inside `sync_send`) together with the list of indices of
native call statements that actually executed. -/

structure ExecEnv where
  openOk : Bool
  initOk : Bool
  mmapOk : Bool
  enableOk : ℕ → Bool
  coverLen : ℕ → ℕ
  disableOk : ℕ → Bool
  sync : ℕ → SyncIO
  munmapOk : Bool
  closeOk : Bool

/-- The setup block: `open` then `KCOV_INIT_TRACE` then `mmap`; the first
failure returns its status before any call executes. -/
def setup_sem (env : ExecEnv) : Option StatusCode :=
  if env.openOk = false then some .KcovOpenErr
  else if env.initOk = false then some .KcovInitErr
  else if env.mmapOk = false then some .MmapErr
  else none

/-- The teardown block: `munmap` then `close` then `return Ok`. -/
def teardown_sem (env : ExecEnv) : StatusCode :=
  if env.munmapOk = false then .MmapErr
  else if env.closeOk = false then .KcovCloseErr
  else .Ok

/-- The per-call brackets from call `i` on, `m` calls remaining, followed
by teardown. Each failing step returns its status immediately, aborting
the remaining calls. -/
def run_calls (env : ExecEnv) : ℕ → ℕ → Option StatusCode × List ℕ
  | _, 0 => (some (teardown_sem env), [])
  | i, m + 1 =>
    if env.enableOk i = false then (some .KcovEnableErr, [])
    else
      -- the native call statement for call i executes here;
      -- `len = cover[0]` captures its trace length
      let len := env.coverLen i
      if env.disableOk i = false then (some .KcovDisableErr, [i])
      else
        match (sync_send_sem (env.sync i) len).1 with
        | .ok =>
          let r := run_calls env (i + 1) m
          (r.1, i :: r.2)
        | .err => (some .CovSendErr, [i])
        | .diverge => (none, [i])

/-- The whole `execute` body for an `n`-call program: setup, the `n`
brackets, teardown. -/
def execute_sem (env : ExecEnv) (n : ℕ) : Option StatusCode × List ℕ :=
  match setup_sem env with
  | some c => (some c, [])
  | none => run_calls env 0 n

/-! ## VM lifecycle manager (`qemu.rs` lines 73-362)

`build_qemu_command` resolves the static per-architecture profile, reserves
an SSH forwarding port, and assembles the qemu command line; `boot` spawns
the child and polls for readiness. The child process, the SSH liveness
probe and the captured stderr are oracles, the structure BootIO: `probe n` is the
round-`n` `is_alive()` call (`Except` error = the `std::io::Error` of the
probe subprocess, carried as a numeric code), `tryWait n` is the round-`n`
`try_wait()` result (`some st` = the child exited with status rendered as
`st`). The polling loop is embedded with an explicit fuel of 6000 rounds;
`poll_fuel_sufficient` proves the fuel-out branch unreachable from `boot`'s
initial state. -/

structure QemuStaticConf where
  qemu : String
  args : String
  append : List String
  net_dev : String

/-- The static architecture table (`QEMU_STATIC_CONF`), keyed by the
`os/arch` string; initialized once and read-only thereafter. -/
def qemu_static_table : List (String × QemuStaticConf) :=
  [("linux/amd64",
    { qemu := "qemu-system-x86_64",
      args := "-enable-kvm -cpu host,migratable=off",
      net_dev := "e1000",
      append := ["root=/dev/sda", "console=ttyS0", "kvm-intel.nested=1",
        "kvm-intel.unrestricted_guest=1", "kvm-intel.vmm_exclusive=1",
        "kvm-intel.fasteoi=1", "kvm-intel.ept=1", "kvm-intel.flexpriority=1",
        "kvm-intel.vpid=1", "kvm-intel.emulate_invalid_guest_state=1",
        "kvm-intel.eptad=1", "kvm-intel.enable_shadow_vmcs=1",
        "kvm-intel.pml=1", "kvm-intel.enable_apicv=1"] }),
   ("linux/386",
    { qemu := "qemu-system-i386", args := "", net_dev := "e1000",
      append := ["root=/dev/sda", "console=ttyS0"] }),
   ("linux/arm64",
    { qemu := "qemu-system-aarch64",
      args := "-machine virt,virtualization=on -cpu cortex-a57",
      net_dev := "virtio-net-pci",
      append := ["root=/dev/vda", "console=ttyAMA0"] }),
   ("linux/arm",
    { qemu := "qemu-system-arm", args := "", net_dev := "virtio-net-pci",
      append := ["root=/dev/vda", "console=ttyAMA0"] }),
   ("linux/mips64le",
    { qemu := "qemu-system-mips64el",
      args := "-M malta -cpu MIPS64R2-generic -nodefaults",
      net_dev := "e1000",
      append := ["root=/dev/sda", "console=ttyS0"] }),
   ("linux/ppc64le",
    { qemu := "qemu-system-ppc64", args := "-enable-kvm -vga none",
      net_dev := "virtio-net-pci", append := [] }),
   ("linux/riscv64",
    { qemu := "qemu-system-riscv64", args := "-machine virt",
      net_dev := "virtio-net-pci",
      append := ["root=/dev/vda", "console=ttyS0"] }),
   ("linux/s390x",
    { qemu := "qemu-system-s390x", args := "-M s390-ccw-virtio -cpu max,zpci=on",
      net_dev := "virtio-net-pci",
      append := ["root=/dev/vda"] })]

/-- Rust `static_conf(os_arch)` — table lookup; `none` for an unknown target. -/
def static_conf (os_arch : String) : Option QemuStaticConf :=
  qemu_static_table.lookup os_arch

/-- Rust `QEMU_LINUX_APPEND`: the fixed panic-on-oops kernel parameters appended
when a custom kernel is supplied. -/
def qemu_linux_append : List String :=
  ["earlyprintk=serial", "oops=panic", "nmi_watchdog=panic",
   "panic_on_warn=1", "panic=1", "ftrace_dump_on_oops=orig_cpu",
   "vsyscall=native", "net.ifnames=0", "biosdevname=0"]

def qemu_host_ip : String := "10.0.2.10"

def qemu_ssh_ip : String := "127.0.0.1"

structure QemuConfM where
  target : String
  img_path : String
  kernel_path : Option String
  mem : Option ℕ
  smp : Option ℕ
  mem_backend_files : List (String × ℕ)

structure SshConfM where
  ssh_user : Option String
  ssh_key : String

inductive BootError where
  | Config (msg : String)
  | Spawn (e : ℕ)
  | NoFreePort
deriving DecidableEq, Repr

structure HandleM where
  ssh_ip : String
  ssh_port : ℕ
  ssh_key_path : String
  ssh_user : String
deriving DecidableEq, Repr

/-- Rust `build_qemu_command`: resolve the architecture profile, assemble the
flag groups, reserve the SSH forwarding port. On success returns the
command (program and argument list), the reserved port, and the updated
claimed-port set. The two error returns happen in source order: unknown
target first, then missing free port. -/
def build_qemu_command (conf : QemuConfM) (bindable : ℕ → Bool)
    (claimed : Finset ℕ) :
    Except BootError ((String × List String) × ℕ × Finset ℕ) :=
  match static_conf conf.target with
  | none => .error (.Config ("target not supported: " ++ conf.target))
  | some sc =>
    -- `conf.target.split('/').nth(1).unwrap()`; every table key contains
    -- a '/', so the unwrap cannot panic on this path
    let arch := ((conf.target.splitOn "/").getD 1 "")
    let common := ["-display", "none", "-serial", "stdio", "-no-reboot",
      "-snapshot", "-device",
      if arch = "s390x" then "virtio-rng-ccw" else "virtio-rng-pci"]
    let arch_args := sc.args.splitOn " "
    let mem := match conf.mem with
      | some sz => ["-m", toString sz]
      | none => ["-m", "1G,slots=3,maxmem=4G"]
    let smp := ["-smp", toString (conf.smp.getD 2)]
    match get_free_port bindable claimed with
    | none => .error .NoFreePort
    | some (port, claimed2) =>
      let net := ["-device", sc.net_dev ++ ",netdev=net0", "-netdev",
        "user,id=net0,host=" ++ qemu_host_ip ++ ",hostfwd=tcp::" ++
          toString port ++ "-:22"]
      let image := ["-drive",
        "file=" ++ conf.img_path ++ ",index=0,media=disk"]
      let app := match conf.kernel_path with
        | some kernel =>
          ["-kernel", kernel, "-append",
           String.intercalate " " (sc.append ++ qemu_linux_append)]
        | none => []
      let inshm := conf.mem_backend_files.enum.foldl
        (fun acc fi => acc ++
          ["-device", "ivshmem-plain,memdev=hostmem" ++ toString fi.1,
           "-object", "memory-backend-file,size=" ++ toString fi.2.2 ++
             "M,share,mem-path=" ++ fi.2.1 ++ ",id=hostmem" ++ toString fi.1])
        []
      .ok ((sc.qemu,
            common ++ arch_args ++ mem ++ smp ++ net ++ image ++ app ++ inshm),
           port, claimed2)

/-- Stand-in for `format!("{:?}", qemu_cmd)` in the timeout message. -/
def cmd_repr (cmd : String × List String) : String :=
  cmd.1 ++ " " ++ String.intercalate " " cmd.2

/-- The boot error message built when the child is found already exited:
`format!("failed to boot, qemu exited with: {}.\nSTDERR:\n{}", status,
stderr)`. -/
def msg_exited (status stderrLog : String) : String :=
  "failed to boot, qemu exited with: " ++ status ++ ".\nSTDERR:\n" ++ stderrLog

def total_wait : ℕ := 600000

def min_wait : ℕ := 100

def wait_delta : ℕ := 100

def init_wait : ℕ := 500

def boot_fuel : ℕ := 6000

/-- The sleep interval of the `i`-th polling round (0-based): starts at
500ms, decreases by 100ms per round, floors at 100ms. -/
def w_seq (i : ℕ) : ℕ := max (init_wait - wait_delta * i) min_wait

inductive LoopOut where
  | alive
  | timeout
  | exited (msg : String)
  | ioErr (e : ℕ)
  | fuelOut
deriving DecidableEq, Repr

/-- The readiness-polling loop (`qemu.rs` lines 107-132). State: round
number `n`, accumulated slept time `waited`, current interval `wd`. One
round: guard `waited < total`; sleep `wd`; `is_alive()?` (I/O error
propagates, success breaks); `try_wait()?` (an already-exited child builds
the `msg_exited` error from its status and the captured stderr, after
`output()` kills and reaps it); otherwise `waited += wd` and `wd` decays by
100ms while above the 100ms floor. Returns the outcome and the list of
sleep intervals performed, in order. -/
def poll (probe : ℕ → Except ℕ Bool) (tryW : ℕ → Except ℕ (Option String))
    (stderrLog : String) : ℕ → ℕ → ℕ → ℕ → LoopOut × List ℕ
  | 0, _, waited, _ =>
    if waited < total_wait then (.fuelOut, []) else (.timeout, [])
  | fuel + 1, n, waited, wd =>
    if waited < total_wait then
      match probe n with
      | .error e => (.ioErr e, [wd])
      | .ok true => (.alive, [wd])
      | .ok false =>
        match tryW n with
        | .error e => (.ioErr e, [wd])
        | .ok (some st) => (.exited (msg_exited st stderrLog), [wd])
        | .ok none =>
          let wd2 := if min_wait < wd then wd - wait_delta else wd
          let r := poll probe tryW stderrLog fuel (n + 1) (waited + wd) wd2
          (r.1, wd :: r.2)
    else (.timeout, [])

structure BootIO where
  bindable : ℕ → Bool
  claimed : Finset ℕ
  probe : ℕ → Except ℕ Bool
  tryWait : ℕ → Except ℕ (Option String)
  stderrLog : String

/-- Observable footprint of one `boot` call: whether the child was spawned,
the claimed-port set at return (the port guard is dropped when `boot`
returns, on every path), the sleeps performed, and whether the child was
killed and reaped before returning (`output()` on the early-exit path, the
handle's `Drop` on the other error paths). -/
structure BootTrace where
  spawned : Bool
  ports : Finset ℕ
  sleeps : List ℕ
  childKilled : Bool
deriving DecidableEq

/-- Rust `boot(conf, ssh_conf)`: build the command (configuration errors return
before any spawn and leave the claimed set untouched), spawn the child,
poll for readiness from `waited = 0`, `wd = 500ms`, then map the loop
outcome to the `Result`. -/
def boot (conf : QemuConfM) (ssh : SshConfM) (io : BootIO) :
    Except BootError HandleM × BootTrace :=
  match build_qemu_command conf io.bindable io.claimed with
  | .error e => (.error e, ⟨false, io.claimed, [], false⟩)
  | .ok (cmd, port, claimed2) =>
    let handle : HandleM :=
      ⟨qemu_ssh_ip, port, ssh.ssh_key, ssh.ssh_user.getD "root"⟩
    let ports_final := claimed2.erase port
    let r := poll io.probe io.tryWait io.stderrLog boot_fuel 0 0 init_wait
    match r.1 with
    | .alive => (.ok handle, ⟨true, ports_final, r.2, false⟩)
    | .timeout =>
      (.error (.Config ("failed to boot: " ++ cmd_repr cmd)),
       ⟨true, ports_final, r.2, true⟩)
    | .exited m => (.error (.Config m), ⟨true, ports_final, r.2, true⟩)
    | .ioErr e => (.error (.Spawn e), ⟨true, ports_final, r.2, true⟩)
    | .fuelOut =>
      -- unreachable from boot's initial state: see poll_fuel_sufficient
      (.error (.Config "unreachable"), ⟨true, ports_final, r.2, true⟩)

/-! ## Concrete fixtures used by witness theorems -/

/-- A sync channel that accepts every write whole and acknowledges. -/
def sync_io_all_ok : SyncIO :=
  ⟨true, fun _ rem => some rem, true⟩

/-- A sync channel whose data-channel write fails at once. -/
def sync_io_prefix_fail : SyncIO :=
  ⟨false, fun _ _ => none, true⟩

/-- A kernel environment in which every step of the generated program
succeeds and call `i` records `i + 1` coverage elements. -/
def env_all_ok : ExecEnv :=
  { openOk := true, initOk := true, mmapOk := true,
    enableOk := fun _ => true, coverLen := fun i => i + 1,
    disableOk := fun _ => true, sync := fun _ => sync_io_all_ok,
    munmapOk := true, closeOk := true }

def env_sync_fail : ExecEnv :=
  { env_all_ok with sync := fun _ => sync_io_prefix_fail }

def env_enable_fail : ExecEnv :=
  { env_all_ok with enableOk := fun _ => false }

def env_disable_fail : ExecEnv :=
  { env_all_ok with disableOk := fun _ => false }

/-- A two-call program, a target resolving its function ids, a header
catalog entry for the first call, and a per-call translator. -/
def prog_two : ProgM := ⟨[⟨0⟩, ⟨1⟩]⟩

def prog_zero : ProgM := ⟨[]⟩

def target_fix : TargetM :=
  ⟨fun fid =>
    if fid = 0 then ⟨"open", [("inc", ⟨some ["bar.h"]⟩)]⟩
    else ⟨"read", []⟩⟩

def cths_fix : String → Option (List String) :=
  fun n => if n = "open" then some ["foo.h"] else none

def trans_fix : ℕ → String :=
  fun i => "call_" ++ toString i ++ "();"

/-- Boot fixtures: a supported and an unsupported configuration, and the
probe/child oracles the witness scenarios need. -/
def conf_amd64 : QemuConfM :=
  { target := "linux/amd64", img_path := "disk.img", kernel_path := none,
    mem := none, smp := none, mem_backend_files := [] }

def conf_unknown : QemuConfM :=
  { conf_amd64 with target := "plan9/arm" }

def ssh_fix : SshConfM :=
  { ssh_user := none, ssh_key := "/root/.ssh/id" }

/-- Child alive at the first probe. -/
def io_alive : BootIO :=
  { bindable := fun _ => true, claimed := ∅,
    probe := fun _ => Except.ok true, tryWait := fun _ => Except.ok none,
    stderrLog := "" }

/-- Child already exited when the first round checks `try_wait`. -/
def io_exited : BootIO :=
  { io_alive with
    probe := fun _ => Except.ok false,
    tryWait := fun _ => Except.ok (some "exit status: 1"),
    stderrLog := "qemu: could not load kernel" }

/-- The liveness probe itself fails with an I/O error at round 0. -/
def io_probe_err : BootIO :=
  { io_alive with probe := fun _ => Except.error 5 }

/-- No port is locally bindable. -/
def io_no_port : BootIO :=
  { io_alive with bindable := fun _ => false }

/-! ### Port allocator lemmas -/

theorem scan_ports_sound (bindable : ℕ → Bool) (claimed : Finset ℕ) :
    ∀ count p q, scan_ports bindable claimed p count = some q →
      bindable q = true ∧ q ∉ claimed ∧ p ≤ q ∧ q < p + count ∧
      ∀ r, p ≤ r → r < q → ¬(bindable r = true ∧ r ∉ claimed) := by
  intro count
  induction count with
  | zero => intro p q h; simp [scan_ports] at h
  | succ n ih =>
    intro p q h
    rw [scan_ports] at h
    by_cases hc : bindable p = true ∧ p ∉ claimed
    · simp [hc] at h
      subst h
      exact ⟨hc.1, hc.2, le_refl _, by omega, fun r h1 h2 => by omega⟩
    · simp [hc] at h
      obtain ⟨h1, h2, h3, h4, h5⟩ := ih (p + 1) q h
      refine ⟨h1, h2, by omega, by omega, ?_⟩
      intro r hr1 hr2
      rcases Nat.eq_or_lt_of_le hr1 with he | hl
      · subst he; exact hc
      · exact h5 r hl hr2

/-! ## Claim theorems: C2, C8, C4 -/

/-- Claim C2: the StatusCode enumeration assigns ordinal 0 to Ok and
ordinals 1 through 7, in order, to KcovOpenErr, KcovCloseErr, KcovInitErr,
KcovEnableErr, KcovDisableErr, CovSendErr, MmapErr; converting each defined
ordinal back yields the variant with that ordinal (round-trip), and every
ordinal outside 0..=7 never silently yields a variant (it panics, i.e.
maps to `none` in the model). -/
theorem statusCode_ordinals_roundtrip :
    status_ord .Ok = 0 ∧ status_ord .KcovOpenErr = 1 ∧
    status_ord .KcovCloseErr = 2 ∧ status_ord .KcovInitErr = 3 ∧
    status_ord .KcovEnableErr = 4 ∧ status_ord .KcovDisableErr = 5 ∧
    status_ord .CovSendErr = 6 ∧ status_ord .MmapErr = 7 ∧
    (∀ c : StatusCode, status_from_i32 (status_ord c) = some c) ∧
    (∀ v : Int, ¬(0 ≤ v ∧ v ≤ 7) → status_from_i32 v = none) := by
  refine ⟨rfl, rfl, rfl, rfl, rfl, rfl, rfl, rfl, ?_, ?_⟩
  · intro c; cases c <;> rfl
  · intro v hv
    have h0 : v ≠ 0 := by omega
    have h1 : v ≠ 1 := by omega
    have h2 : v ≠ 2 := by omega
    have h3 : v ≠ 3 := by omega
    have h4 : v ≠ 4 := by omega
    have h5 : v ≠ 5 := by omega
    have h6 : v ≠ 6 := by omega
    have h7 : v ≠ 7 := by omega
    simp [status_from_i32, h0, h1, h2, h3, h4, h5, h6, h7]

/-- Witness for C2: concrete evaluations through the theorem itself. -/
theorem statusCode_ordinals_roundtrip_w :
    status_from_i32 7 = some StatusCode.MmapErr ∧ status_from_i32 8 = none :=
  ⟨statusCode_ordinals_roundtrip.2.2.2.2.2.2.2.2.1 StatusCode.MmapErr,
   statusCode_ordinals_roundtrip.2.2.2.2.2.2.2.2.2 8 (by decide)⟩

/-- Claim C8: for a program whose uninstrumented native translation is
empty, `bg_exec` performs no compilation and returns with no side effects;
for a non-empty translation it compiles the translated source and runs it
as a sub-invocation. -/
theorem bg_exec_empty_noop (s : String) :
    (s = "" → bg_exec s = []) ∧
    (s ≠ "" → bg_exec s =
      [BgEffect.compile s, BgEffect.run "healer-executor-bg-exec"]) := by
  constructor
  · intro h; simp [bg_exec, h]
  · intro h; simp [bg_exec, h]

/-- Witness for C8: the empty translation versus a concrete non-empty one. -/
theorem bg_exec_empty_noop_w :
    bg_exec "" = [] ∧
    bg_exec "syscall(1);" =
      [BgEffect.compile "syscall(1);", BgEffect.run "healer-executor-bg-exec"] :=
  ⟨(bg_exec_empty_noop "").1 rfl, (bg_exec_empty_noop "syscall(1);").2 (by decide)⟩

/-- Soundness of `get_free_port` over any claimed set: the returned port is
bindable, previously unclaimed, inserted before return, inside the scanned
range, and minimal among eligible ports. -/
theorem get_free_port_sound (bindable : ℕ → Bool) (S : Finset ℕ) :
    ∀ p S2, get_free_port bindable S = some (p, S2) →
      bindable p = true ∧ p ∉ S ∧ S2 = insert p S ∧ 1025 ≤ p ∧ p < 65535 ∧
      ∀ q, 1025 ≤ q → q < p → bindable q = true → q ∈ S := by
  intro p S2 h
  unfold get_free_port at h
  cases heq : scan_ports bindable S 1025 64510 with
  | none => rw [heq] at h; simp at h
  | some q =>
    rw [heq] at h
    simp only [Option.some.injEq, Prod.mk.injEq] at h
    obtain ⟨hq, hS2⟩ := h
    subst hq
    obtain ⟨h1, h2, h3, h4, h5⟩ := scan_ports_sound bindable S 64510 1025 q heq
    refine ⟨h1, h2, hS2.symm, h3, by omega, ?_⟩
    intro r hr1 hr2 hrb
    by_contra hrS
    exact h5 r hr1 hr2 ⟨hrb, hrS⟩

/-- Claim C4: port reservation scans ascending and returns the first port
that is locally bindable and absent from the shared claimed set, inserting
it before returning; two reservations held at the same time never hold the
same port; dropping a guard removes its port (making it eligible again:
absent from the set while still bindable), and removing an absent port is
an assertion failure. -/
theorem port_reservation_spec (bindable : ℕ → Bool) (S : Finset ℕ) :
    (∀ p S2, get_free_port bindable S = some (p, S2) →
        bindable p = true ∧ p ∉ S ∧ S2 = insert p S ∧ 1025 ≤ p ∧ p < 65535 ∧
        ∀ q, 1025 ≤ q → q < p → bindable q = true → q ∈ S) ∧
    (∀ p S2 p2 S3, get_free_port bindable S = some (p, S2) →
        get_free_port bindable S2 = some (p2, S3) → p2 ≠ p) ∧
    (∀ p, p ∉ S → drop_guard S p = none) ∧
    (∀ p S2, get_free_port bindable S = some (p, S2) →
        drop_guard S2 p = some (S2.erase p) ∧ p ∉ S2.erase p ∧
        bindable p = true) := by
  refine ⟨get_free_port_sound bindable S, ?_, ?_, ?_⟩
  · intro p S2 p2 S3 h h2
    obtain ⟨_, _, hS2, _, _, _⟩ := get_free_port_sound bindable S p S2 h
    have hnot := (get_free_port_sound bindable S2 p2 S3 h2).2.1
    intro he
    subst he
    rw [hS2] at hnot
    exact hnot (Finset.mem_insert_self p2 S)
  · intro p hp
    simp [drop_guard, hp]
  · intro p S2 h
    obtain ⟨hb, hpS, hS2, _, _, _⟩ := get_free_port_sound bindable S p S2 h
    have hmem : p ∈ S2 := by rw [hS2]; exact Finset.mem_insert_self p S
    exact ⟨by simp [drop_guard, hmem], Finset.not_mem_erase p S2, hb⟩

/-- Witness for C4: with every port bindable and an empty claimed set, the
first reservation takes 1025, a second concurrent one takes a different
port, dropping an absent port fails the assertion, and dropping the held
guard succeeds and frees the port. -/
theorem port_reservation_spec_w :
    (1030 : ℕ) ∉ (∅ : Finset ℕ) ∧
    drop_guard (∅ : Finset ℕ) 1030 = none ∧
    (1026 : ℕ) ≠ 1025 ∧
    drop_guard (insert 1025 (∅ : Finset ℕ)) 1025 =
      some ((insert 1025 (∅ : Finset ℕ)).erase 1025) ∧
    (1025 : ℕ) ∉ (insert 1025 (∅ : Finset ℕ)).erase 1025 := by
  have hfree : get_free_port (fun _ => true) (∅ : Finset ℕ) =
      some (1025, insert 1025 (∅ : Finset ℕ)) := by decide
  have hfree2 : get_free_port (fun _ => true) (insert 1025 (∅ : Finset ℕ)) =
      some (1026, insert 1026 (insert 1025 (∅ : Finset ℕ))) := by decide
  have habs : (1030 : ℕ) ∉ (∅ : Finset ℕ) := by decide
  refine ⟨habs, ?_, ?_, ?_, ?_⟩
  · exact (port_reservation_spec (fun _ => true) ∅).2.2.1 1030 habs
  · exact (port_reservation_spec (fun _ => true) ∅).2.1 1025
      (insert 1025 ∅) 1026 (insert 1026 (insert 1025 ∅)) hfree hfree2
  · exact ((port_reservation_spec (fun _ => true) ∅).2.2.2 1025
      (insert 1025 ∅) hfree).1
  · exact ((port_reservation_spec (fun _ => true) ∅).2.2.2 1025
      (insert 1025 ∅) hfree).2.1

/-! ### Coverage synchronization lemmas -/

/-- When the write-until-complete loop succeeds it has emitted only
payload chunks, each of positive size, totalling exactly the requested
byte count. -/
theorem write_loop_ok (io : SyncIO) :
    ∀ fuel k rem, (write_loop io k rem fuel).1 = SyncRes.ok →
      (((write_loop io k rem fuel).2.map chunk_bytes).sum = rem ∧
       ∀ e ∈ (write_loop io k rem fuel).2,
         ∃ nb, e = SyncEv.writeChunk nb ∧ 0 < nb) := by
  intro fuel
  induction fuel with
  | zero =>
    intro k rem h
    simp [write_loop] at h
  | succ f ih =>
    intro k rem h
    rcases hcw : io.chunkWrite k rem with _ | w
    · rw [write_loop, hcw] at h
      simp at h
    · rw [write_loop, hcw] at h ⊢
      dsimp only at h ⊢
      by_cases h0 : min w rem = 0
      · rw [if_pos h0] at h
        simp at h
      · rw [if_neg h0] at h ⊢
        by_cases hr : rem - min w rem = 0
        · rw [if_pos hr] at h ⊢
          constructor
          · simp [chunk_bytes]
            omega
          · intro e he
            simp at he
            exact ⟨min w rem, he, by omega⟩
        · rw [if_neg hr] at h ⊢
          dsimp only at h ⊢
          obtain ⟨hsum, hall⟩ := ih (k + 1) (rem - min w rem) h
          constructor
          · simp only [List.map_cons, List.sum_cons, hsum, chunk_bytes]
            omega
          · intro e he
            simp only [List.mem_cons] at he
            rcases he with he | he
            · exact ⟨min w rem, he, by omega⟩
            · exact hall e he

/-- Claim C3: in the synchronization routine, a call whose coverage element
count is zero performs no write of the length prefix, no payload write and
no acknowledgment read, and reports success; a nonzero count writes the
4-byte count, then `count * 8` payload bytes in a write-until-complete
loop, then blocks reading the 8-byte acknowledgment, and any I/O failure on
either channel yields the failure value, which the per-call bracket maps to
CovSendErr. -/
theorem sync_send_protocol (io : SyncIO) (len : ℕ) :
    (sync_send_sem io 0 = (SyncRes.ok, [])) ∧
    (len ≠ 0 → (sync_send_sem io len).1 = SyncRes.ok →
      ∃ chunks, (sync_send_sem io len).2 =
          SyncEv.writePrefix len :: chunks ++ [SyncEv.readAck] ∧
        (∀ e ∈ chunks, ∃ nb, e = SyncEv.writeChunk nb ∧ 0 < nb) ∧
        (chunks.map chunk_bytes).sum = len * 8) ∧
    (len ≠ 0 → io.prefixWriteOk = false →
      sync_send_sem io len = (SyncRes.err, [])) ∧
    (len ≠ 0 → io.prefixWriteOk = true →
      (write_loop io 0 (len * 8) (len * 8)).1 = SyncRes.err →
      (sync_send_sem io len).1 = SyncRes.err) ∧
    (len ≠ 0 → io.prefixWriteOk = true →
      (write_loop io 0 (len * 8) (len * 8)).1 = SyncRes.ok →
      io.ackReadOk = false → (sync_send_sem io len).1 = SyncRes.err) ∧
    (∀ env : ExecEnv, ∀ i m : ℕ,
      env.enableOk i = true → env.disableOk i = true →
      (sync_send_sem (env.sync i) (env.coverLen i)).1 = SyncRes.err →
      run_calls env i (m + 1) = (some StatusCode.CovSendErr, [i])) := by
  refine ⟨by simp [sync_send_sem], ?_, ?_, ?_, ?_, ?_⟩
  · intro hlen hok
    rw [sync_send_sem] at hok ⊢
    simp only [hlen, if_false] at hok ⊢
    cases hpw : io.prefixWriteOk with
    | false => simp [hpw] at hok
    | true =>
      simp only [hpw] at hok ⊢
      simp only [Bool.true_eq_false, if_false] at hok ⊢
      cases hwl : (write_loop io 0 (len * 8) (len * 8)).1 with
      | ok =>
        simp only [hwl] at hok ⊢
        cases hack : io.ackReadOk with
        | false => simp [hack] at hok
        | true =>
          simp only [hack, if_true]
          refine ⟨(write_loop io 0 (len * 8) (len * 8)).2, rfl, ?_, ?_⟩
          · exact (write_loop_ok io (len * 8) 0 (len * 8) hwl).2
          · exact (write_loop_ok io (len * 8) 0 (len * 8) hwl).1
      | err => simp [hwl] at hok
      | diverge => simp [hwl] at hok
  · intro hlen hpw
    simp [sync_send_sem, hlen, hpw]
  · intro hlen hpw hwl
    simp [sync_send_sem, hlen, hpw, hwl]
  · intro hlen hpw hwl hack
    simp [sync_send_sem, hlen, hpw, hwl, hack]
  · intro env i m hen hdis hsync
    rw [run_calls]
    simp [hen, hdis, hsync]

/-- Witness for C3: a channel that accepts everything whole (one chunk of 8
bytes for one element), a channel whose first write fails, and the caller
mapping the failure to CovSendErr. -/
theorem sync_send_protocol_w :
    sync_send_sem sync_io_all_ok 0 = (SyncRes.ok, []) ∧
    (∃ chunks, (sync_send_sem sync_io_all_ok 1).2 =
        SyncEv.writePrefix 1 :: chunks ++ [SyncEv.readAck] ∧
      (∀ e ∈ chunks, ∃ nb, e = SyncEv.writeChunk nb ∧ 0 < nb) ∧
      (chunks.map chunk_bytes).sum = 1 * 8) ∧
    sync_send_sem sync_io_prefix_fail 1 = (SyncRes.err, []) ∧
    run_calls env_sync_fail 0 1 = (some StatusCode.CovSendErr, [0]) := by
  refine ⟨(sync_send_protocol sync_io_all_ok 1).1, ?_, ?_, ?_⟩
  · exact (sync_send_protocol sync_io_all_ok 1).2.1 (by decide) (by decide)
  · exact (sync_send_protocol sync_io_prefix_fail 1).2.2.1 (by decide) rfl
  · exact (sync_send_protocol sync_io_prefix_fail 1).2.2.2.2.2 env_sync_fail 0 0
      rfl rfl (by decide)

/-! ### Instrumentation lemmas -/

/-- The per-call statement list built by the instrumentation loop is one
coverage bracket per call, indexed in program order. -/
theorem instr_loop_stmts (cths : String → Option (List String))
    (trans : ℕ → String) (t : TargetM) :
    ∀ calls i includes,
      (instr_loop cths trans t calls i includes).2 =
        (List.range' i calls.length).map (fun j => cov_bracket (trans j)) := by
  intro calls
  induction calls with
  | nil =>
    intro i includes
    simp [instr_loop]
  | cons c rest ih =>
    intro i includes
    simp only [instr_loop, List.length_cons, List.range', List.map_cons]
    rw [ih]

/-- When every bracket step succeeds, the generated program executes every
call from `i` on, in order, and falls through to teardown. -/
theorem run_calls_all_ok (env : ExecEnv)
    (hen : ∀ j, env.enableOk j = true) (hdis : ∀ j, env.disableOk j = true)
    (hsync : ∀ j, (sync_send_sem (env.sync j) (env.coverLen j)).1 = SyncRes.ok) :
    ∀ m i, run_calls env i m = (some (teardown_sem env), List.range' i m) := by
  intro m
  induction m with
  | zero =>
    intro i
    simp [run_calls, List.range']
  | succ n ih =>
    intro i
    rw [run_calls]
    simp [hen i, hdis i, hsync i, ih (i + 1), List.range']

/-- The fully-accepting sync channel always reports success. -/
theorem sync_io_all_ok_succeeds :
    ∀ len, (sync_send_sem sync_io_all_ok len).1 = SyncRes.ok := by
  intro len
  rcases len with _ | n
  · simp [sync_send_sem]
  · have hfuel : (n + 1) * 8 = (8 * n + 7) + 1 := by ring
    simp only [sync_send_sem, hfuel]
    rw [write_loop]
    simp [sync_io_all_ok]

/-- Claim C1: for every program the instrumentation emits exactly one
coverage bracket per call, in program order, each of the template form
(enable, native call, trace-length capture, disable, sync hand-off); each
failing bracket step returns its own distinct StatusCode immediately, so a
failure at call `i` aborts all later calls; and a zero-call program's
emitted `execute` consists of the setup block and the teardown block only. -/
theorem instrument_prog_brackets (cths : String → Option (List String))
    (trans : ℕ → String) (p : ProgM) (t : TargetM) (env : ExecEnv) (i m : ℕ) :
    ((instr_loop cths trans t p.calls 0 base_includes).2 =
      (List.range p.calls.length).map (fun j => cov_bracket (trans j))) ∧
    ((instr_loop cths trans t p.calls 0 base_includes).2.length =
      p.calls.length) ∧
    (p.calls = [] →
      execute_src (instr_loop cths trans t p.calls 0 base_includes).2 =
        "int execute()\x7b\n" ++ (kcov_open_src ++ "\n" ++ clean_src ++ "\n") ++
          "\x7d") ∧
    (setup_sem env = none →
      execute_sem env 0 = (some (teardown_sem env), [])) ∧
    ((∀ j, env.enableOk j = true) → (∀ j, env.disableOk j = true) →
      (∀ j, (sync_send_sem (env.sync j) (env.coverLen j)).1 = SyncRes.ok) →
      run_calls env i m = (some (teardown_sem env), List.range' i m)) ∧
    (env.enableOk i = false →
      run_calls env i (m + 1) = (some StatusCode.KcovEnableErr, [])) ∧
    (env.enableOk i = true → env.disableOk i = false →
      run_calls env i (m + 1) = (some StatusCode.KcovDisableErr, [i])) ∧
    (env.enableOk i = true → env.disableOk i = true →
      (sync_send_sem (env.sync i) (env.coverLen i)).1 = SyncRes.err →
      run_calls env i (m + 1) = (some StatusCode.CovSendErr, [i])) ∧
    (StatusCode.KcovEnableErr ≠ StatusCode.KcovDisableErr ∧
      StatusCode.KcovDisableErr ≠ StatusCode.CovSendErr ∧
      StatusCode.KcovEnableErr ≠ StatusCode.CovSendErr) := by
  refine ⟨?_, ?_, ?_, ?_, ?_, ?_, ?_, ?_, by decide, by decide, by decide⟩
  · rw [instr_loop_stmts, List.range_eq_range']
  · rw [instr_loop_stmts]
    simp
  · intro hp
    rw [hp]
    simp only [instr_loop, execute_src, List.map_nil, String.join,
      List.foldl_nil, String.append_empty]
  · intro hsetup
    simp [execute_sem, hsetup, run_calls]
  · intro hen hdis hsync
    exact run_calls_all_ok env hen hdis hsync m i
  · intro hen
    rw [run_calls]
    simp [hen]
  · intro hen hdis
    rw [run_calls]
    simp [hen, hdis]
  · intro hen hdis hsync
    rw [run_calls]
    simp [hen, hdis, hsync]

/-- Witness for C1: a two-call program (one bracket per call, in order), a
zero-call program (setup and teardown only), a fully-successful run of two
calls, and one run per failing bracket step. -/
theorem instrument_prog_brackets_w :
    ((instr_loop cths_fix trans_fix target_fix prog_two.calls 0
        base_includes).2 =
      (List.range prog_two.calls.length).map
        (fun j => cov_bracket (trans_fix j))) ∧
    (execute_src (instr_loop cths_fix trans_fix target_fix prog_zero.calls 0
        base_includes).2 =
      "int execute()\x7b\n" ++ (kcov_open_src ++ "\n" ++ clean_src ++ "\n") ++
        "\x7d") ∧
    execute_sem env_all_ok 0 = (some (teardown_sem env_all_ok), []) ∧
    run_calls env_all_ok 0 2 = (some (teardown_sem env_all_ok), [0, 1]) ∧
    run_calls env_enable_fail 0 3 = (some StatusCode.KcovEnableErr, []) ∧
    run_calls env_disable_fail 0 3 = (some StatusCode.KcovDisableErr, [0]) ∧
    run_calls env_sync_fail 0 3 = (some StatusCode.CovSendErr, [0]) := by
  refine ⟨(instrument_prog_brackets cths_fix trans_fix prog_two target_fix
      env_all_ok 0 0).1, ?_, ?_, ?_, ?_, ?_, ?_⟩
  · exact (instrument_prog_brackets cths_fix trans_fix prog_zero target_fix
      env_all_ok 0 0).2.2.1 rfl
  · exact (instrument_prog_brackets cths_fix trans_fix prog_zero target_fix
      env_all_ok 0 0).2.2.2.1 rfl
  · have h := (instrument_prog_brackets cths_fix trans_fix prog_two target_fix
      env_all_ok 0 2).2.2.2.2.1 (fun _ => rfl) (fun _ => rfl)
      (fun j => sync_io_all_ok_succeeds (env_all_ok.coverLen j))
    simpa [List.range'] using h
  · exact (instrument_prog_brackets cths_fix trans_fix prog_two target_fix
      env_enable_fail 0 2).2.2.2.2.2.1 rfl
  · exact (instrument_prog_brackets cths_fix trans_fix prog_two target_fix
      env_disable_fail 0 2).2.2.2.2.2.2.1 rfl rfl
  · exact (instrument_prog_brackets cths_fix trans_fix prog_two target_fix
      env_sync_fail 0 2).2.2.2.2.2.2.2.1 rfl rfl (by decide)

/-- Claim C10: `instrument_prog` never returns its error variant — its body
always reaches `Ok(buf)` — so the error-printing branch of `exec` that
handles an instrumentation failure is dead code. -/
theorem instrument_prog_never_errs (cths : String → Option (List String))
    (trans : ℕ → String) (p : ProgM) (t : TargetM) (dfd sfd : Int) :
    (∃ src, instrument_prog cths trans p t dfd sfd = Except.ok src) ∧
    exec_errpath_taken cths trans p t dfd sfd = false :=
  ⟨⟨_, rfl⟩, rfl⟩

/-! ### Polling-loop lemmas -/

/-- One decay step of the sleep interval follows the `w_seq` sequence. -/
theorem w_seq_step (k : ℕ) :
    (if min_wait < w_seq k then w_seq k - wait_delta else w_seq k) =
      w_seq (k + 1) := by
  simp only [w_seq, min_wait, wait_delta, init_wait, Nat.max_def]
  split_ifs <;> omega

/-- The interval sequence is monotonically non-increasing. -/
theorem w_seq_mono (k : ℕ) : w_seq (k + 1) ≤ w_seq k := by
  simp only [w_seq, Nat.max_def, min_wait, wait_delta, init_wait]
  split_ifs <;> omega

/-- The interval sequence never goes below the floor. -/
theorem w_seq_floor (k : ℕ) : min_wait ≤ w_seq k :=
  Nat.le_max_right _ _

/-- The sleep intervals performed by the loop, started with interval
`w_seq k`, are an initial segment of the `w_seq` sequence from `k`. -/
theorem poll_sleeps_shape (probe : ℕ → Except ℕ Bool)
    (tryW : ℕ → Except ℕ (Option String)) (log : String) :
    ∀ fuel n waited k, ∃ cnt,
      (poll probe tryW log fuel n waited (w_seq k)).2 =
        (List.range' k cnt).map w_seq := by
  intro fuel
  induction fuel with
  | zero =>
    intro n waited k
    refine ⟨0, ?_⟩
    rw [poll]
    split <;> rfl
  | succ f ih =>
    intro n waited k
    rw [poll]
    by_cases hw : waited < total_wait
    · simp only [hw, if_pos]
      cases hpr : probe n with
      | error e => exact ⟨1, by simp [List.range']⟩
      | ok alive =>
        cases alive with
        | true => exact ⟨1, by simp [List.range']⟩
        | false =>
          cases htw : tryW n with
          | error e => exact ⟨1, by simp [List.range']⟩
          | ok exited =>
            cases exited with
            | some st => exact ⟨1, by simp [List.range']⟩
            | none =>
              dsimp only
              rw [w_seq_step]
              obtain ⟨cnt, hcnt⟩ := ih (n + 1) (waited + w_seq k) (k + 1)
              refine ⟨cnt + 1, ?_⟩
              simp only [List.range', List.map_cons]
              rw [hcnt]
    · simp only [hw, if_neg, ite_false]
      exact ⟨0, rfl⟩

/-- Budget bound for the polling loop: the slept time never exceeds the
total budget by a full interval; once the budget is consumed no further
sleep happens. -/
theorem poll_sum_bound (probe : ℕ → Except ℕ Bool)
    (tryW : ℕ → Except ℕ (Option String)) (log : String) :
    ∀ fuel n waited wd,
      (waited < total_wait →
        (poll probe tryW log fuel n waited wd).2.sum + waited + 1 ≤
          total_wait + wd) ∧
      (total_wait ≤ waited →
        (poll probe tryW log fuel n waited wd).2.sum = 0) := by
  intro fuel
  induction fuel with
  | zero =>
    intro n waited wd
    constructor
    · intro hw
      rw [poll]
      simp [hw]
      omega
    · intro hw
      rw [poll]
      simp [Nat.not_lt_of_le hw]
  | succ f ih =>
    intro n waited wd
    constructor
    · intro hw
      rw [poll]
      simp only [hw, if_pos]
      cases hpr : probe n with
      | error e => simp; omega
      | ok alive =>
        cases alive with
        | true => simp; omega
        | false =>
          cases htw : tryW n with
          | error e => simp; omega
          | ok exited =>
            cases exited with
            | some st => simp; omega
            | none =>
              dsimp only
              simp only [List.sum_cons]
              have hwd2 : (if min_wait < wd then wd - wait_delta else wd) ≤ wd := by
                split <;> omega
              by_cases hw2 : waited + wd < total_wait
              · have h1 := (ih (n + 1) (waited + wd)
                  (if min_wait < wd then wd - wait_delta else wd)).1 hw2
                omega
              · have h2 := (ih (n + 1) (waited + wd)
                  (if min_wait < wd then wd - wait_delta else wd)).2 (by omega)
                omega
    · intro hw
      rw [poll]
      simp [Nat.not_lt_of_le hw]

/-- With at least one round of fuel per 100ms of remaining budget (and an
interval that is a positive multiple of 100ms, as `boot`'s always is), the
loop never runs out of fuel. -/
theorem poll_fuel_sufficient (probe : ℕ → Except ℕ Bool)
    (tryW : ℕ → Except ℕ (Option String)) (log : String) :
    ∀ fuel n waited wd, 100 ≤ wd → wd % 100 = 0 →
      total_wait ≤ waited + 100 * fuel →
      (poll probe tryW log fuel n waited wd).1 ≠ LoopOut.fuelOut := by
  intro fuel
  induction fuel with
  | zero =>
    intro n waited wd h1 h2 h3
    rw [poll]
    have : ¬(waited < total_wait) := by omega
    simp [this]
  | succ f ih =>
    intro n waited wd h1 h2 h3
    rw [poll]
    by_cases hw : waited < total_wait
    · simp only [hw, if_pos]
      cases hpr : probe n with
      | error e => simp
      | ok alive =>
        cases alive with
        | true => simp
        | false =>
          cases htw : tryW n with
          | error e => simp
          | ok exited =>
            cases exited with
            | some st => simp
            | none =>
              dsimp only
              refine ih (n + 1) (waited + wd) _ ?_ ?_ ?_
              · simp only [min_wait, wait_delta]
                split <;> omega
              · simp only [min_wait, wait_delta]
                split <;> omega
              · omega
    · simp [hw]

/-- Value of `getD` on a mapped `range'` segment. -/
theorem map_range'_getD (f : ℕ → ℕ) :
    ∀ cnt s j, j < cnt → ((List.range' s cnt).map f).getD j 0 = f (s + j) := by
  intro cnt
  induction cnt with
  | zero =>
    intro s j h
    omega
  | succ n ih =>
    intro s j h
    cases j with
    | zero => simp [List.range']
    | succ j2 =>
      simp only [List.range', List.map_cons, List.getD_cons_succ]
      rw [ih (s + 1) j2 (by omega)]
      congr 1
      omega

/-- A scan over ports none of which is bindable finds nothing. -/
theorem scan_ports_none (bindable : ℕ → Bool) (claimed : Finset ℕ)
    (h : ∀ q, bindable q = false) :
    ∀ count p, scan_ports bindable claimed p count = none := by
  intro count
  induction count with
  | zero =>
    intro p
    rfl
  | succ n ih =>
    intro p
    rw [scan_ports]
    simp [h p]
    exact ih (p + 1)

/-- If no port is bindable, reservation fails. -/
theorem get_free_port_none (bindable : ℕ → Bool) (claimed : Finset ℕ)
    (h : ∀ q, bindable q = false) :
    get_free_port bindable claimed = none := by
  unfold get_free_port
  rw [scan_ports_none bindable claimed h]

/-- Claim C5: the boot readiness loop's sleep intervals follow the sequence
starting at 500ms, decreasing by 100ms per round with floor 100ms — so, in
particular, they are monotonically non-increasing and never below 100ms —
and the accumulated sleep time never exceeds the 10-minute budget by more
than one full sleep interval. -/
theorem boot_backoff_budget (conf : QemuConfM) (ssh : SshConfM) (io : BootIO) :
    (∃ cnt, (boot conf ssh io).2.sleeps = (List.range' 0 cnt).map w_seq) ∧
    (∀ j, j < (boot conf ssh io).2.sleeps.length →
      (boot conf ssh io).2.sleeps.getD j 0 = w_seq j) ∧
    (∀ j, j + 1 < (boot conf ssh io).2.sleeps.length →
      (boot conf ssh io).2.sleeps.getD (j + 1) 0 ≤
        (boot conf ssh io).2.sleeps.getD j 0) ∧
    (∀ j, j < (boot conf ssh io).2.sleeps.length →
      min_wait ≤ (boot conf ssh io).2.sleeps.getD j 0) ∧
    (boot conf ssh io).2.sleeps.sum ≤ total_wait + init_wait := by
  have hmain : (∃ cnt, (boot conf ssh io).2.sleeps =
      (List.range' 0 cnt).map w_seq) ∧
      (boot conf ssh io).2.sleeps.sum ≤ total_wait + init_wait := by
    cases hb : build_qemu_command conf io.bindable io.claimed with
    | error e =>
      have hsl : (boot conf ssh io).2.sleeps = [] := by
        simp [boot, hb]
      rw [hsl]
      exact ⟨⟨0, rfl⟩, by simp⟩
    | ok triple =>
      obtain ⟨cmd, port, c2⟩ := triple
      have hw0 : w_seq 0 = init_wait := by decide
      rcases hr : poll io.probe io.tryWait io.stderrLog boot_fuel 0 0 init_wait
        with ⟨out, sl⟩
      have hbs : (boot conf ssh io).2.sleeps = sl := by
        cases out <;> simp [boot, hb, hr]
      have hr0 : poll io.probe io.tryWait io.stderrLog boot_fuel 0 0 (w_seq 0) =
          (out, sl) := by
        rw [hw0]
        exact hr
      obtain ⟨cnt, hcnt⟩ :=
        poll_sleeps_shape io.probe io.tryWait io.stderrLog boot_fuel 0 0 0
      rw [hr0] at hcnt
      have hsum := (poll_sum_bound io.probe io.tryWait io.stderrLog
        boot_fuel 0 0 init_wait).1 (by decide)
      rw [hr] at hsum
      dsimp only at hsum hcnt
      rw [hbs]
      exact ⟨⟨cnt, hcnt⟩, by omega⟩
  obtain ⟨⟨cnt, hshape⟩, hsum⟩ := hmain
  have hlen : (boot conf ssh io).2.sleeps.length = cnt := by
    rw [hshape]
    simp
  have hpt : ∀ j, j < (boot conf ssh io).2.sleeps.length →
      (boot conf ssh io).2.sleeps.getD j 0 = w_seq j := by
    intro j hj
    rw [hshape, map_range'_getD w_seq cnt 0 j (by omega)]
    congr 1
    omega
  refine ⟨⟨cnt, hshape⟩, hpt, ?_, ?_, hsum⟩
  · intro j hj
    rw [hpt j (by omega), hpt (j + 1) hj]
    exact w_seq_mono j
  · intro j hj
    rw [hpt j hj]
    exact w_seq_floor j

/-- Witness for C5: a boot whose guest answers the first probe performs a
single 500ms sleep; the interval matches the sequence, respects the floor,
and the accumulated sleep respects the budget. -/
theorem boot_backoff_budget_w :
    (boot conf_amd64 ssh_fix io_alive).2.sleeps.getD 0 0 = w_seq 0 ∧
    min_wait ≤ (boot conf_amd64 ssh_fix io_alive).2.sleeps.getD 0 0 ∧
    (boot conf_amd64 ssh_fix io_alive).2.sleeps.sum ≤
      total_wait + init_wait := by
  have hlen : 0 < (boot conf_amd64 ssh_fix io_alive).2.sleeps.length := by
    decide
  exact ⟨(boot_backoff_budget conf_amd64 ssh_fix io_alive).2.1 0 hlen,
         (boot_backoff_budget conf_amd64 ssh_fix io_alive).2.2.2.1 0 hlen,
         (boot_backoff_budget conf_amd64 ssh_fix io_alive).2.2.2.2⟩

/-- Claim C6: a child observed already exited during readiness polling
makes `boot` return at once — after the current round's single sleep, not
the remaining budget — with a configuration-class error whose message
embeds the exit status and the captured stderr, the child having been
killed and reaped before the error is returned. -/
theorem boot_early_exit
    (probe : ℕ → Except ℕ Bool) (tryW : ℕ → Except ℕ (Option String))
    (log : String) (f n waited wd : ℕ) (st : String)
    (conf : QemuConfM) (ssh : SshConfM) (io : BootIO)
    (cmd : String × List String) (port : ℕ) (claimed2 : Finset ℕ) :
    (waited < total_wait → probe n = Except.ok false →
      tryW n = Except.ok (some st) →
      poll probe tryW log (f + 1) n waited wd =
        (LoopOut.exited (msg_exited st log), [wd])) ∧
    (∃ pre mid, msg_exited st log = pre ++ st ++ mid) ∧
    (∃ pre2, msg_exited st log = pre2 ++ log) ∧
    (build_qemu_command conf io.bindable io.claimed =
        Except.ok (cmd, port, claimed2) →
      io.probe 0 = Except.ok false →
      io.tryWait 0 = Except.ok (some st) →
      boot conf ssh io =
        (Except.error (BootError.Config (msg_exited st io.stderrLog)),
         ⟨true, claimed2.erase port, [init_wait], true⟩)) := by
  refine ⟨?_, ?_, ?_, ?_⟩
  · intro hw hpr htw
    rw [poll]
    simp [hw, hpr, htw]
  · exact ⟨"failed to boot, qemu exited with: ", ".\nSTDERR:\n" ++ log,
      by simp [msg_exited, String.append_assoc]⟩
  · exact ⟨"failed to boot, qemu exited with: " ++ st ++ ".\nSTDERR:\n", rfl⟩
  · intro hb hpr htw
    have hpoll : poll io.probe io.tryWait io.stderrLog boot_fuel 0 0 init_wait =
        (LoopOut.exited (msg_exited st io.stderrLog), [init_wait]) := by
      show poll io.probe io.tryWait io.stderrLog (5999 + 1) 0 0 init_wait = _
      rw [poll]
      simp [hpr, htw, total_wait]
    simp [boot, hb, hpoll]

/-- Witness for C6: a child that exits before the first round ends the loop
after one 500ms sleep with the Config error embedding its status and
stderr, the child killed. -/
theorem boot_early_exit_w :
    poll io_exited.probe io_exited.tryWait io_exited.stderrLog 1 0 0 500 =
      (LoopOut.exited
        (msg_exited "exit status: 1" "qemu: could not load kernel"), [500]) ∧
    boot conf_amd64 ssh_fix io_exited =
      (Except.error (BootError.Config
        (msg_exited "exit status: 1" "qemu: could not load kernel")),
       ⟨true, (insert 1025 (∅ : Finset ℕ)).erase 1025, [init_wait], true⟩) := by
  obtain ⟨cmd, hb⟩ : ∃ cmd,
      build_qemu_command conf_amd64 io_exited.bindable io_exited.claimed =
        Except.ok (cmd, 1025, insert 1025 (∅ : Finset ℕ)) := ⟨_, rfl⟩
  constructor
  · exact (boot_early_exit io_exited.probe io_exited.tryWait
      io_exited.stderrLog 0 0 0 500 "exit status: 1" conf_amd64 ssh_fix
      io_exited cmd 1025 (insert 1025 ∅)).1 (by decide) rfl rfl
  · exact (boot_early_exit io_exited.probe io_exited.tryWait
      io_exited.stderrLog 0 0 0 500 "exit status: 1" conf_amd64 ssh_fix
      io_exited cmd 1025 (insert 1025 ∅)).2.2.2 hb rfl rfl

/-- Claim C9: when the SSH liveness probe itself fails with an I/O error,
`boot` aborts that very round (one sleep, no further polling) and
propagates the error as a spawn-class boot error. -/
theorem boot_probe_ioerr
    (probe : ℕ → Except ℕ Bool) (tryW : ℕ → Except ℕ (Option String))
    (log : String) (f n waited wd e : ℕ)
    (conf : QemuConfM) (ssh : SshConfM) (io : BootIO)
    (cmd : String × List String) (port : ℕ) (claimed2 : Finset ℕ) :
    (waited < total_wait → probe n = Except.error e →
      poll probe tryW log (f + 1) n waited wd = (LoopOut.ioErr e, [wd])) ∧
    (build_qemu_command conf io.bindable io.claimed =
        Except.ok (cmd, port, claimed2) →
      io.probe 0 = Except.error e →
      boot conf ssh io = (Except.error (BootError.Spawn e),
        ⟨true, claimed2.erase port, [init_wait], true⟩)) := by
  constructor
  · intro hw hpr
    rw [poll]
    simp [hw, hpr]
  · intro hb hpr
    have hpoll : poll io.probe io.tryWait io.stderrLog boot_fuel 0 0 init_wait =
        (LoopOut.ioErr e, [init_wait]) := by
      show poll io.probe io.tryWait io.stderrLog (5999 + 1) 0 0 init_wait = _
      rw [poll]
      simp [hpr, total_wait]
    simp [boot, hb, hpoll]

/-- Witness for C9: a probe failing with I/O error 5 at round 0 makes the
loop return `ioErr 5` after one sleep, and `boot` returns `Spawn 5`. -/
theorem boot_probe_ioerr_w :
    poll io_probe_err.probe io_probe_err.tryWait io_probe_err.stderrLog
      1 0 0 500 = (LoopOut.ioErr 5, [500]) ∧
    boot conf_amd64 ssh_fix io_probe_err =
      (Except.error (BootError.Spawn 5),
       ⟨true, (insert 1025 (∅ : Finset ℕ)).erase 1025, [init_wait], true⟩) := by
  obtain ⟨cmd, hb⟩ : ∃ cmd,
      build_qemu_command conf_amd64 io_probe_err.bindable io_probe_err.claimed =
        Except.ok (cmd, 1025, insert 1025 (∅ : Finset ℕ)) := ⟨_, rfl⟩
  constructor
  · exact (boot_probe_ioerr io_probe_err.probe io_probe_err.tryWait
      io_probe_err.stderrLog 0 0 0 500 5 conf_amd64 ssh_fix io_probe_err
      cmd 1025 (insert 1025 ∅)).1 (by decide) rfl
  · exact (boot_probe_ioerr io_probe_err.probe io_probe_err.tryWait
      io_probe_err.stderrLog 0 0 0 500 5 conf_amd64 ssh_fix io_probe_err
      cmd 1025 (insert 1025 ∅)).2 hb rfl

/-- Claim C7: an os/arch target absent from the static architecture table,
and likewise an exhausted port range, make `boot` return its configuration
error (unknown target, or no-free-port) before any child process is
spawned, leaving the claimed-port set unchanged. -/
theorem boot_config_errors (conf : QemuConfM) (ssh : SshConfM) (io : BootIO) :
    (static_conf conf.target = none →
      boot conf ssh io =
        (Except.error (BootError.Config
          ("target not supported: " ++ conf.target)),
         ⟨false, io.claimed, [], false⟩)) ∧
    (∀ sc, static_conf conf.target = some sc →
      get_free_port io.bindable io.claimed = none →
      boot conf ssh io =
        (Except.error BootError.NoFreePort,
         ⟨false, io.claimed, [], false⟩)) := by
  constructor
  · intro h
    simp [boot, build_qemu_command, h]
  · intro sc hsc hport
    simp [boot, build_qemu_command, hsc, hport]

/-- Witness for C7: an unknown `plan9/arm` target errors before spawn, and
a configuration with no bindable port errors with NoFreePort before spawn;
both leave the claimed set untouched. -/
theorem boot_config_errors_w :
    boot conf_unknown ssh_fix io_alive =
      (Except.error (BootError.Config
        ("target not supported: " ++ conf_unknown.target)),
       ⟨false, io_alive.claimed, [], false⟩) ∧
    boot conf_amd64 ssh_fix io_no_port =
      (Except.error BootError.NoFreePort,
       ⟨false, io_no_port.claimed, [], false⟩) := by
  constructor
  · exact (boot_config_errors conf_unknown ssh_fix io_alive).1 rfl
  · obtain ⟨sc, hsc⟩ : ∃ sc, static_conf conf_amd64.target = some sc :=
      ⟨_, rfl⟩
    exact (boot_config_errors conf_amd64 ssh_fix io_no_port).2 sc hsc
      (get_free_port_none _ _ (fun q => rfl))

end HealerSpec
